import Mathlib

/-!
Verification development for the Helix Connect client engine
(spec.md of helix-tools/sdk-website).

Bytes are modelled as natural numbers (< 256 where it matters); byte
sequences as `List Nat`.  Pure functions are translated directly from
the documented source snippets where the repository contains them
(retry/backoff and rate-limit helpers); the cryptographic envelope
pipeline, transfer engine, notification poller and capability facades
are modelled from the specification, since the SDK implementation
itself is not part of this documentation repository.
-/

namespace Helix

/-- Error taxonomy of the codec / key-wrap layer (spec §4.1, §7). -/
inductive CodecError where
  | integrityError
  | formatError
  | keyServiceError
  | cryptoError
  deriving DecidableEq, Repr

/-- Modelled from the spec: DEFLATE-family (gzip) compression at levels
1–9 is abstracted as an invertible framing: the real gzip magic bytes
`0x1f 0x8b`, the level byte, then the payload.  The actual DEFLATE
bit-stream of the SDK is not in this repository. -/
def gzipCompress (level : Nat) (data : List Nat) : List Nat :=
  31 :: 139 :: level :: data

/-- Modelled from the spec: inverse of `gzipCompress`; malformed input
(wrong magic or level outside 1–9) fails with `FormatError`. -/
def gzipDecompress (blob : List Nat) : Except CodecError (List Nat) :=
  match blob with
  | 31 :: 139 :: level :: rest =>
      if 1 ≤ level ∧ level ≤ 9 then .ok rest else .error .formatError
  | _ => .error .formatError

/-- Modelled from the spec: the AES-256-GCM keystream is abstracted as a
position-dependent byte stream derived from the data key and IV. -/
def keystreamByte (key iv : List Nat) (i : Nat) : Nat :=
  (key.sum + 7 * iv.sum + 13 * i) % 256

/-- Modelled from the spec: symmetric-cipher core, XOR of the payload
with the keystream starting at position `i`. -/
def cipherFrom (key iv : List Nat) (i : Nat) : List Nat → List Nat
  | [] => []
  | b :: rest => (b ^^^ keystreamByte key iv i) :: cipherFrom key iv (i + 1) rest

/-- Modelled from the spec: encryption of a byte sequence; decryption is
the same XOR stream, as in a counter-mode cipher. -/
def cipherBytes (key iv : List Nat) (data : List Nat) : List Nat :=
  cipherFrom key iv 0 data

/-- Modelled from the spec: the 128-bit GCM authentication tag is
abstracted as 16 bytes bound to the data key, the IV and the whole
ciphertext; its first byte is a modular ciphertext checksum, so any
single-bit change of the ciphertext changes the tag. -/
def authTagBytes (key iv ct : List Nat) : List Nat :=
  ((key.sum + iv.sum + ct.sum) % 256) ::
    (List.range 15).map (fun j => (key.sum * (j + 2) + iv.sum + j) % 256)

/-- Modelled from the spec: `KeyWrapClient.wrap` — the KMS wrapping of
the 32-byte data key is abstracted as an invertible framing under the
service's authority. -/
def wrapKey (dataKey : List Nat) : List Nat :=
  75 :: 77 :: 83 :: dataKey

/-- Modelled from the spec: `KeyWrapClient.unwrap`; a blob that was not
produced by `wrapKey` fails with `KeyServiceError`. -/
def unwrapKey (blob : List Nat) : Except CodecError (List Nat) :=
  match blob with
  | 75 :: 77 :: 83 :: rest => .ok rest
  | _ => .error .keyServiceError

/-- Envelope data model (spec §3): length-prefixed wrapped key, 12-byte
IV, 16-byte authentication tag, ciphertext. -/
structure Envelope where
  wrappedKeyLength : Nat
  wrappedKey : List Nat
  iv : List Nat
  authTag : List Nat
  ciphertext : List Nat
  deriving DecidableEq, Repr

/-- Modelled from the spec: `EnvelopeCodec.seal` — compress, encrypt
under a fresh data key and IV (passed explicitly, standing for the
random generator), wrap the key, assemble the Envelope. -/
def sealEnvelope (dataKey iv plaintext : List Nat) (level : Nat) : Envelope :=
  let compressed := gzipCompress level plaintext
  let ct := cipherBytes dataKey iv compressed
  { wrappedKeyLength := (wrapKey dataKey).length
    wrappedKey := wrapKey dataKey
    iv := iv
    authTag := authTagBytes dataKey iv ct
    ciphertext := ct }

/-- Modelled from the spec: `EnvelopeCodec.open` — unwrap the data key,
verify the authentication tag (failing closed with `IntegrityError`),
decrypt, decompress (failing with `FormatError` on malformed data). -/
def openEnvelope (env : Envelope) : Except CodecError (List Nat) :=
  match unwrapKey env.wrappedKey with
  | .error e => .error e
  | .ok dataKey =>
      if authTagBytes dataKey env.iv env.ciphertext = env.authTag then
        gzipDecompress (cipherBytes dataKey env.iv env.ciphertext)
      else
        .error .integrityError

lemma cipherFrom_cipherFrom (key iv : List Nat) (i : Nat) (data : List Nat) :
    cipherFrom key iv i (cipherFrom key iv i data) = data := by
  induction data generalizing i with
  | nil => rfl
  | cons b rest ih =>
      simp [cipherFrom, Nat.xor_cancel_right, ih]

lemma cipherBytes_cipherBytes (key iv data : List Nat) :
    cipherBytes key iv (cipherBytes key iv data) = data :=
  cipherFrom_cipherFrom key iv 0 data

/-- Claim C1: for every byte sequence `plaintext` and every compression
level `1 ≤ level ≤ 9`, opening the envelope produced by sealing returns
exactly the original plaintext. -/
theorem open_seal_roundtrip (dataKey iv plaintext : List Nat) (level : Nat)
    (h1 : 1 ≤ level) (h9 : level ≤ 9) :
    openEnvelope (sealEnvelope dataKey iv plaintext level) = .ok plaintext := by
  simp [openEnvelope, sealEnvelope, unwrapKey, wrapKey, cipherBytes_cipherBytes,
    gzipCompress, gzipDecompress, h1, h9]

/-- Witness for C1: a concrete payload at level 6 round-trips. -/
theorem open_seal_roundtrip_witness :
    (1 ≤ 6 ∧ 6 ≤ 9) ∧
      openEnvelope (sealEnvelope [1, 2, 3] [4, 5] [10, 200, 30] 6) = .ok [10, 200, 30] :=
  ⟨⟨by decide, by decide⟩,
    open_seal_roundtrip [1, 2, 3] [4, 5] [10, 200, 30] 6 (by decide) (by decide)⟩

/-- A single-bit flip: XOR bit `k` of byte `i` of a byte sequence. -/
def flipBit (l : List Nat) (i k : Nat) : List Nat :=
  l.set i (l.getD i 0 ^^^ 2 ^ k)

lemma sum_set_add (l : List Nat) (i x : Nat) (h : i < l.length) :
    (l.set i x).sum + l.getD i 0 = l.sum + x := by
  induction l generalizing i with
  | nil => simp at h
  | cons b rest ih =>
      cases i with
      | zero => simp [List.set]; omega
      | succ n =>
          have hn : n < rest.length := by simpa using h
          have := ih n hn
          simp only [List.set, List.sum_cons, List.getD_cons_succ]
          omega

lemma getD_set_self (l : List Nat) (i x : Nat) (h : i < l.length) :
    (l.set i x).getD i 0 = x := by
  induction l generalizing i with
  | nil => simp at h
  | cons b rest ih =>
      cases i with
      | zero => rfl
      | succ n => exact ih n (by simpa using h)

lemma flip_mod_ne (b k : Nat) (hk : k < 8) :
    (b ^^^ 2 ^ k) % 256 ≠ b % 256 := by
  intro h
  have h' : ((b ^^^ 2 ^ k) % 2 ^ 8).testBit k = (b % 2 ^ 8).testBit k := by
    rw [show (2 : Nat) ^ 8 = 256 by norm_num]
    exact congrArg (fun t => Nat.testBit t k) h
  rw [Nat.testBit_mod_two_pow, Nat.testBit_mod_two_pow, Nat.testBit_xor] at h'
  simp [hk, Nat.testBit_two_pow_self] at h'

lemma flipBit_ne (l : List Nat) (i k : Nat) (hi : i < l.length) :
    flipBit l i k ≠ l := by
  intro h
  have h1 : (flipBit l i k).getD i 0 = l.getD i 0 ^^^ 2 ^ k := getD_set_self l i _ hi
  rw [h] at h1
  have h3 := congrArg (fun t => l.getD i 0 ^^^ t) h1.symm
  simp [← Nat.xor_assoc] at h3

lemma tag_head_ne (s0 : Nat) (ct : List Nat) (i k : Nat)
    (hi : i < ct.length) (hk : k < 8) :
    (s0 + (flipBit ct i k).sum) % 256 ≠ (s0 + ct.sum) % 256 := by
  intro h
  have hsum : (flipBit ct i k).sum + ct.getD i 0 = ct.sum + (ct.getD i 0 ^^^ 2 ^ k) :=
    sum_set_add ct i _ hi
  have h1 : (s0 + (flipBit ct i k).sum + ct.getD i 0) % 256
      = (s0 + ct.sum + ct.getD i 0) % 256 := Nat.ModEq.add_right _ h
  rw [Nat.add_assoc, hsum, ← Nat.add_assoc] at h1
  have h2 : (ct.getD i 0 ^^^ 2 ^ k) % 256 = ct.getD i 0 % 256 :=
    Nat.ModEq.add_left_cancel' (s0 + ct.sum) h1
  exact flip_mod_ne _ k hk h2

lemma authTag_flip_ct_ne (key iv ct : List Nat) (i k : Nat)
    (hi : i < ct.length) (hk : k < 8) :
    authTagBytes key iv (flipBit ct i k) ≠ authTagBytes key iv ct := by
  intro h
  have hhead := congrArg (fun t => t.headD 0) h
  simp only [authTagBytes, List.headD_cons] at hhead
  exact tag_head_ne (key.sum + iv.sum) ct i k hi hk (by
    simpa [Nat.add_assoc] using hhead)

/-- Claim C2: flipping any single bit of the ciphertext, or any single
bit of the authentication tag, of a sealed Envelope makes `open` fail
with `IntegrityError`; no plaintext is returned. -/
theorem tamper_detection (dataKey iv plaintext : List Nat) (level i j k m : Nat)
    (hk : k < 8) (_hm : m < 8)
    (hi : i < (sealEnvelope dataKey iv plaintext level).ciphertext.length)
    (hj : j < (sealEnvelope dataKey iv plaintext level).authTag.length) :
    openEnvelope { sealEnvelope dataKey iv plaintext level with
        ciphertext := flipBit (sealEnvelope dataKey iv plaintext level).ciphertext i k }
      = .error .integrityError
    ∧ openEnvelope { sealEnvelope dataKey iv plaintext level with
        authTag := flipBit (sealEnvelope dataKey iv plaintext level).authTag j m }
      = .error .integrityError := by
  simp only [sealEnvelope] at hi hj ⊢
  constructor
  · have hne := authTag_flip_ct_ne dataKey iv
      (cipherBytes dataKey iv (gzipCompress level plaintext)) i k hi hk
    simp [openEnvelope, unwrapKey, wrapKey, hne]
  · have hne := flipBit_ne (authTagBytes dataKey iv
      (cipherBytes dataKey iv (gzipCompress level plaintext))) j m hj
    simp [openEnvelope, unwrapKey, wrapKey]
    intro hcontra
    exact absurd hcontra.symm hne

/-- Witness for C2: concrete single-bit flips on a sealed envelope are
both rejected with `IntegrityError`. -/
theorem tamper_detection_witness :
    (0 < (sealEnvelope [9] [2] [3, 4] 6).ciphertext.length ∧
      0 < (sealEnvelope [9] [2] [3, 4] 6).authTag.length) ∧
    openEnvelope { sealEnvelope [9] [2] [3, 4] 6 with
        ciphertext := flipBit (sealEnvelope [9] [2] [3, 4] 6).ciphertext 0 3 }
      = .error .integrityError ∧
    openEnvelope { sealEnvelope [9] [2] [3, 4] 6 with
        authTag := flipBit (sealEnvelope [9] [2] [3, 4] 6).authTag 0 5 }
      = .error .integrityError :=
  ⟨⟨by decide, by decide⟩,
    tamper_detection [9] [2] [3, 4] 6 0 0 3 5 (by decide) (by decide)
      (by decide) (by decide)⟩

/-- Modelled from the spec: big-endian 32-bit integer encoding. -/
def u32be (n : Nat) : List Nat :=
  [n / 2 ^ 24 % 256, n / 2 ^ 16 % 256, n / 2 ^ 8 % 256, n % 256]

/-- Modelled from the spec: the bit-exact on-wire envelope layout
`u32 wrappedKeyLength | wrappedKey | iv[12] | authTag[16] | ciphertext`,
integers big-endian. -/
def serializeEnvelope (env : Envelope) : List Nat :=
  u32be env.wrappedKeyLength ++ env.wrappedKey ++ env.iv ++ env.authTag ++ env.ciphertext

/-- Modelled from the spec: parsing the on-wire layout back into an
Envelope; too-short input yields no envelope. -/
def parseEnvelope (bytes : List Nat) : Option Envelope :=
  match bytes with
  | b0 :: b1 :: b2 :: b3 :: rest =>
      let klen := ((b0 * 256 + b1) * 256 + b2) * 256 + b3
      if klen + 12 + 16 ≤ rest.length then
        some { wrappedKeyLength := klen
               wrappedKey := rest.take klen
               iv := (rest.drop klen).take 12
               authTag := ((rest.drop klen).drop 12).take 16
               ciphertext := ((rest.drop klen).drop 12).drop 16 }
      else none
  | _ => none

lemma u32be_decode (n : Nat) (h : n < 2 ^ 32) :
    ((n / 2 ^ 24 % 256 * 256 + n / 2 ^ 16 % 256) * 256 + n / 2 ^ 8 % 256) * 256 + n % 256
      = n := by
  omega

lemma take_append_exact {α : Type} (l r : List α) (n : Nat) (h : l.length = n) :
    (l ++ r).take n = l ∧ (l ++ r).drop n = r := by
  subst h
  exact ⟨List.take_left l r, List.drop_left l r⟩

/-- Claim C7: a well-formed Envelope (length field equal to the wrapped
key's length, 12-byte IV, 16-byte tag, length field below 2^32)
serializes to the big-endian layout and parses back to the same
Envelope; every sealed Envelope satisfies the length-field invariant. -/
theorem envelope_wire_roundtrip (env : Envelope)
    (hlen : env.wrappedKeyLength = env.wrappedKey.length)
    (hiv : env.iv.length = 12)
    (htag : env.authTag.length = 16)
    (h32 : env.wrappedKeyLength < 2 ^ 32) :
    parseEnvelope (serializeEnvelope env) = some env
    ∧ ∀ dataKey ivb plaintext level,
        (sealEnvelope dataKey ivb plaintext level).wrappedKeyLength
          = (sealEnvelope dataKey ivb plaintext level).wrappedKey.length := by
  constructor
  · simp only [serializeEnvelope, u32be, List.cons_append, List.nil_append,
      parseEnvelope]
    rw [u32be_decode env.wrappedKeyLength h32]
    have h1 := take_append_exact env.wrappedKey (env.iv ++ env.authTag ++ env.ciphertext)
      env.wrappedKeyLength hlen.symm
    have h2 := take_append_exact env.iv (env.authTag ++ env.ciphertext) 12 hiv
    have h3 := take_append_exact env.authTag env.ciphertext 16 htag
    have hlenge : env.wrappedKeyLength + 12 + 16
        ≤ (env.wrappedKey ++ (env.iv ++ env.authTag ++ env.ciphertext)).length := by
      simp [List.length_append, hlen, hiv, htag]
      omega
    rw [show env.wrappedKey ++ env.iv ++ env.authTag ++ env.ciphertext
        = env.wrappedKey ++ (env.iv ++ env.authTag ++ env.ciphertext) by
      simp [List.append_assoc]]
    rw [if_pos hlenge, h1.1, h1.2]
    rw [show env.iv ++ env.authTag ++ env.ciphertext
        = env.iv ++ (env.authTag ++ env.ciphertext) by simp [List.append_assoc]]
    rw [h2.1, h2.2, h3.1, h3.2]
  · intro dataKey ivb plaintext level
    rfl

/-- Witness for C7: a concrete sealed envelope round-trips through the
wire format. -/
theorem envelope_wire_roundtrip_witness :
    ((sealEnvelope [1] (List.replicate 12 0) [5, 6] 6).wrappedKeyLength
        = (sealEnvelope [1] (List.replicate 12 0) [5, 6] 6).wrappedKey.length
      ∧ (sealEnvelope [1] (List.replicate 12 0) [5, 6] 6).iv.length = 12
      ∧ (sealEnvelope [1] (List.replicate 12 0) [5, 6] 6).authTag.length = 16
      ∧ (sealEnvelope [1] (List.replicate 12 0) [5, 6] 6).wrappedKeyLength < 2 ^ 32)
    ∧ parseEnvelope (serializeEnvelope (sealEnvelope [1] (List.replicate 12 0) [5, 6] 6))
        = some (sealEnvelope [1] (List.replicate 12 0) [5, 6] 6) :=
  ⟨⟨by decide, by decide, by decide, by decide⟩,
    (envelope_wire_roundtrip (sealEnvelope [1] (List.replicate 12 0) [5, 6] 6)
      (by decide) (by decide) (by decide) (by decide)).1⟩

/-- Transfer-layer errors (spec §4.3, §7). -/
inductive TransferError where
  | resumeInvalidError
  | integrityError
  | notFoundError
  deriving DecidableEq, Repr

/-- Modelled from the spec: per-chunk checksum recorded in the
manifest's `chunkChecksums`. -/
def chunkChecksum (chunk : List Nat) : Nat :=
  (chunk.sum + chunk.length * 31) % 65536

/-- Resume token (spec §3): opaque capability holding the object, the
manifest checksums it was issued against, and the count of chunks
already verified and written. -/
structure ResumeToken where
  objectId : Nat
  checksums : List Nat
  chunksDone : Nat
  deriving DecidableEq, Repr

/-- Modelled from the spec: an uninterrupted `TransferEngine.download`
appends every chunk to the sink in index order. -/
def fullDownload (chunks : List (List Nat)) : List Nat :=
  chunks.flatten

/-- Modelled from the spec: a download interrupted after `n` verified
chunks leaves the destination holding exactly those chunks and a valid
resume token recording the manifest and progress. -/
def interruptedDownload (objectId : Nat) (chunks : List (List Nat)) (n : Nat) :
    List Nat × ResumeToken :=
  ((chunks.take n).flatten,
    { objectId := objectId, checksums := chunks.map chunkChecksum, chunksDone := n })

/-- Modelled from the spec: resuming a download verifies the token
against the manifest (object identity and chunk checksums); a mismatch
fails with `ResumeInvalidError`, otherwise the remaining chunks are
appended starting from the first un-downloaded chunk. -/
def resumeDownload (objectId : Nat) (chunks : List (List Nat))
    (destination : List Nat) (token : ResumeToken) :
    Except TransferError (List Nat) :=
  if token.objectId = objectId ∧ token.checksums = chunks.map chunkChecksum then
    .ok (destination ++ (chunks.drop token.chunksDone).flatten)
  else
    .error .resumeInvalidError

/-- Claim C4: interrupting a download of an `m`-chunk object after
`n < m` chunks and resuming with the returned token yields a file
byte-identical to an uninterrupted download. -/
theorem resume_byte_identical (objectId : Nat) (chunks : List (List Nat)) (n : Nat)
    (_hn : n < chunks.length) :
    resumeDownload objectId chunks
        (interruptedDownload objectId chunks n).1
        (interruptedDownload objectId chunks n).2
      = .ok (fullDownload chunks) := by
  simp only [resumeDownload, interruptedDownload, fullDownload]
  rw [if_pos ⟨trivial, trivial⟩]
  rw [← List.flatten_append, List.take_append_drop]

/-- Witness for C4: resuming after 1 of 3 chunks reproduces the full
object. -/
theorem resume_byte_identical_witness :
    (1 < ([[1, 2], [3], [4, 5]] : List (List Nat)).length) ∧
      resumeDownload 7 [[1, 2], [3], [4, 5]]
          (interruptedDownload 7 [[1, 2], [3], [4, 5]] 1).1
          (interruptedDownload 7 [[1, 2], [3], [4, 5]] 1).2
        = .ok (fullDownload [[1, 2], [3], [4, 5]]) :=
  ⟨by decide, resume_byte_identical 7 [[1, 2], [3], [4, 5]] 1 (by decide)⟩

/-- Notification record (spec §3). -/
structure NotificationRecord where
  eventId : Nat
  datasetId : Nat
  version : Nat
  receiptHandle : Nat
  deriving DecidableEq, Repr

/-- Poller dedup state (spec §4.5): bounded recent-history set of event
ids, most recent first, trimmed to `window`. -/
structure PollerState where
  seen : List Nat
  window : Nat
  deriving DecidableEq, Repr

/-- Modelled from the spec: deliver one record through the dedup
filter — a duplicate `eventId` still in the recent-history set is
filtered silently; a fresh one is recorded and passed to the caller. -/
def processRecord (s : PollerState) (r : NotificationRecord) :
    PollerState × Option NotificationRecord :=
  if r.eventId ∈ s.seen then (s, none)
  else ({ s with seen := (r.eventId :: s.seen).take s.window }, some r)

/-- Modelled from the spec: deliver a batch of records in order through
the dedup filter; the second component lists the records that reach the
caller (each of which triggers at most one download and one callback). -/
def processRecords (s : PollerState) (rs : List NotificationRecord) :
    PollerState × List NotificationRecord :=
  match rs with
  | [] => (s, [])
  | r :: rest =>
      let step := processRecord s r
      let next := processRecords step.1 rest
      (next.1, step.2.toList ++ next.2)

/-- Claim C5: delivering two records with the same `eventId` within the
dedup window (window capacity at least one) results in at most one
record reaching the caller, hence at most one download and one
callback; the duplicate is filtered silently. -/
theorem dedup_at_most_once (s : PollerState) (r1 r2 : NotificationRecord)
    (hw : 1 ≤ s.window) (heq : r2.eventId = r1.eventId) :
    ((processRecords s [r1, r2]).2.countP (fun r => r.eventId == r1.eventId)) ≤ 1 := by
  by_cases h1 : r1.eventId ∈ s.seen
  · have h2 : r2.eventId ∈ s.seen := by rw [heq]; exact h1
    simp [processRecords, processRecord, h1, h2]
  · have hmem : r2.eventId ∈ (r1.eventId :: s.seen).take s.window := by
      obtain ⟨w, hw'⟩ := Nat.exists_eq_add_of_le hw
      rw [hw', Nat.add_comm, heq, List.take_succ_cons]
      exact List.mem_cons_self _ _
    simp [processRecords, processRecord, h1, hmem, List.countP_cons]

/-- Witness for C5: a concrete duplicate pair yields exactly one
delivered record. -/
theorem dedup_at_most_once_witness :
    (1 ≤ (PollerState.mk [] 8).window ∧
      (NotificationRecord.mk 5 1 1 100).eventId = (NotificationRecord.mk 5 2 2 101).eventId) ∧
    ((processRecords (PollerState.mk [] 8)
        [NotificationRecord.mk 5 2 2 101, NotificationRecord.mk 5 1 1 100]).2.countP
      (fun r => r.eventId == (NotificationRecord.mk 5 2 2 101).eventId)) ≤ 1 :=
  ⟨⟨by decide, by decide⟩,
    dedup_at_most_once (PollerState.mk [] 8)
      (NotificationRecord.mk 5 2 2 101) (NotificationRecord.mk 5 1 1 100)
      (by decide) (by decide)⟩

/-- Outcome of the caller's notification callback (spec §4.5). -/
inductive CallbackOutcome where
  | success
  | threw
  deriving DecidableEq, Repr

/-- Result of one listener-loop iteration for a single delivered
record: whether the receipt handle was acknowledged, the queue's
pending messages afterwards, whether a callback failure was reported as
an error event, and whether the loop is still running. -/
structure IterationResult where
  acked : Bool
  queueAfter : List NotificationRecord
  errorReported : Bool
  listenerRunning : Bool
  deriving DecidableEq, Repr

/-- Modelled from the spec: one listener-loop iteration for one
delivered record — run the (optional auto-) download, then the caller's
callback, and acknowledge the receipt handle only after the callback
returns without error; a download failure or callback exception is
converted into a reported error event, the message stays in the queue
for redelivery, and the loop keeps running. -/
def listenerIteration (queue : List NotificationRecord) (r : NotificationRecord)
    (downloadOk : Bool) (callbackOutcome : CallbackOutcome) : IterationResult :=
  if downloadOk = false then
    { acked := false, queueAfter := queue, errorReported := true, listenerRunning := true }
  else
    match callbackOutcome with
    | .success =>
        { acked := true
          queueAfter := queue.filter (fun msg => msg.receiptHandle != r.receiptHandle)
          errorReported := false
          listenerRunning := true }
    | .threw =>
        { acked := false, queueAfter := queue, errorReported := true, listenerRunning := true }

/-- Claim C6: the receipt handle is acknowledged only when the callback
returns without error; if the callback throws — even after a successful
download — the message is not acknowledged, remains pending so a later
poll redelivers it, and the listener loop keeps running. -/
theorem ack_only_after_callback (queue : List NotificationRecord)
    (r : NotificationRecord) (downloadOk : Bool) (outcome : CallbackOutcome)
    (hr : r ∈ queue) :
    ((listenerIteration queue r downloadOk outcome).acked = true →
      downloadOk = true ∧ outcome = .success)
    ∧ (listenerIteration queue r true .threw).acked = false
    ∧ r ∈ (listenerIteration queue r true .threw).queueAfter
    ∧ (listenerIteration queue r true .threw).errorReported = true
    ∧ (listenerIteration queue r true .threw).listenerRunning = true := by
  refine ⟨?_, by simp [listenerIteration], ?_, by simp [listenerIteration],
    by simp [listenerIteration]⟩
  · intro h
    cases downloadOk with
    | false => simp [listenerIteration] at h
    | true =>
        cases outcome with
        | success => exact ⟨rfl, rfl⟩
        | threw => simp [listenerIteration] at h
  · simpa [listenerIteration] using hr

/-- Witness for C6: a concrete queue and record — a throwing callback
leaves the record pending and unacknowledged while the loop survives. -/
theorem ack_only_after_callback_witness :
    (NotificationRecord.mk 1 2 3 44 ∈ [NotificationRecord.mk 1 2 3 44]) ∧
    ((listenerIteration [NotificationRecord.mk 1 2 3 44]
        (NotificationRecord.mk 1 2 3 44) true .threw).acked = false
      ∧ NotificationRecord.mk 1 2 3 44 ∈
          (listenerIteration [NotificationRecord.mk 1 2 3 44]
            (NotificationRecord.mk 1 2 3 44) true .threw).queueAfter) :=
  ⟨by decide,
    ⟨(ack_only_after_callback [NotificationRecord.mk 1 2 3 44]
        (NotificationRecord.mk 1 2 3 44) true .threw (by decide)).2.1,
      (ack_only_after_callback [NotificationRecord.mk 1 2 3 44]
        (NotificationRecord.mk 1 2 3 44) true .threw (by decide)).2.2.1⟩⟩

/-- Transfer engine identity (spec §4.6): facades share engine
instances by reference; the identifier stands for the reference. -/
structure TransferEngine where
  engineId : Nat
  chunkSizeBytes : Nat
  deriving DecidableEq, Repr

/-- The consume operation group's surface (spec §4.6): list, download,
subscribe, poll. -/
inductive ConsumeRequest where
  | listDatasets
  | downloadDataset (objectId : Nat)
  | subscribeToDataset (objectId : Nat)
  | pollNotifications (maxMessages waitSeconds : Nat)
  deriving DecidableEq, Repr

/-- Modelled from the spec: the result of a consume operation is a
function of the engine it runs on and the request alone. -/
def consumeResult (engine : TransferEngine) (req : ConsumeRequest) : Nat :=
  engine.engineId * 2 ^ 20 + engine.chunkSizeBytes % 2 ^ 10 +
    match req with
    | .listDatasets => 0
    | .downloadDataset objectId => objectId * 4 + 1
    | .subscribeToDataset objectId => objectId * 4 + 2
    | .pollNotifications maxMessages waitSeconds => (maxMessages * 100 + waitSeconds) * 4 + 3

/-- Capability facade (spec §3, §4.6): an immutable composed set of
operation groups, each holding the shared engine by reference. -/
structure CapabilityFacade where
  consume : Option TransferEngine
  produce : Option TransferEngine
  administer : Option TransferEngine
  deriving DecidableEq, Repr

/-- Modelled from the spec: a consume-only facade over an engine. -/
def mkConsumerFacade (engine : TransferEngine) : CapabilityFacade :=
  { consume := some engine, produce := none, administer := none }

/-- Modelled from the spec: a produce-capable facade is the consume
group over the same engine plus the produce group. -/
def mkProducerFacade (engine : TransferEngine) : CapabilityFacade :=
  { consume := some engine, produce := some engine, administer := none }

/-- Modelled from the spec: dispatch of a consume operation through a
facade — a set-membership test on the consume group, then the shared
engine runs the request. -/
def runConsume (facade : CapabilityFacade) (req : ConsumeRequest) : Option Nat :=
  facade.consume.map (fun engine => consumeResult engine req)

/-- Claim C8: every consume operation behaves identically through a
produce-capable facade and through a consume-only facade over the same
engine; the producer facade is exactly the consumer facade plus the
produce group, sharing the engine instance. -/
theorem producer_consume_refines_consumer (engine : TransferEngine) (req : ConsumeRequest) :
    runConsume (mkProducerFacade engine) req = runConsume (mkConsumerFacade engine) req
    ∧ mkProducerFacade engine = { mkConsumerFacade engine with produce := some engine }
    ∧ (mkProducerFacade engine).consume = (mkConsumerFacade engine).consume
    ∧ (mkProducerFacade engine).produce = some engine := by
  exact ⟨rfl, rfl, rfl, rfl⟩

/-- Translated from `RetryConfig` in the Go advanced guide
(src/unnamed/part_003): backoff configuration.  Durations and the
factor are rationals (the source's float values are exactly
representable). -/
structure RetryConfig where
  maxRetries : Nat
  initialBackoff : ℚ
  maxBackoff : ℚ
  backoffFactor : ℚ
  jitter : Bool
  deriving DecidableEq, Repr

/-- Translated from `DefaultRetryConfig` (src/unnamed/part_003): 3
retries, 1 s initial backoff, 30 s ceiling, factor 2, jitter on. -/
def defaultRetryConfig : RetryConfig :=
  { maxRetries := 3, initialBackoff := 1, maxBackoff := 30, backoffFactor := 2, jitter := true }

/-- SDK error shapes as matched by the documented retry helpers
(src/unnamed/part_003, part_004). -/
inductive SdkError where
  | networkError (retryable : Bool)
  | rateLimitError (retryAfter : Nat)
  | authenticationError
  | permissionDeniedError
  | datasetNotFoundError
  | validationError
  deriving DecidableEq, Repr

/-- The spec's `Terminal` classification (spec §4.4): authentication,
authorization, not-found and validation errors. -/
def isTerminalClass : SdkError → Bool
  | .authenticationError => true
  | .permissionDeniedError => true
  | .datasetNotFoundError => true
  | .validationError => true
  | _ => false

/-- Translated from `retryWithBackoff` (src/unnamed/part_003 lines
405–409): exponential backoff `initialBackoff * backoffFactor ^
attempt`, capped at `maxBackoff` — the cap is applied before jitter. -/
def cappedBackoff (cfg : RetryConfig) (attempt : Nat) : ℚ :=
  if cfg.initialBackoff * cfg.backoffFactor ^ attempt > cfg.maxBackoff then cfg.maxBackoff
  else cfg.initialBackoff * cfg.backoffFactor ^ attempt

/-- Translated from `retryWithBackoff` (src/unnamed/part_003 lines
411–415): when `Jitter` is set, `backoff * 0.25 * (2*rand.Float64()-1)`
is added to the already-capped backoff; `u` stands for the
`rand.Float64()` draw in `[0,1)`. -/
def backoffDelay (cfg : RetryConfig) (attempt : Nat) (u : ℚ) : ℚ :=
  if cfg.jitter then
    cappedBackoff cfg attempt + cappedBackoff cfg attempt * (1 / 4) * (2 * u - 1)
  else
    cappedBackoff cfg attempt

/-- Translated from `retryWithBackoff` (src/unnamed/part_003 lines
390–418): the retry decision and proposed sleep for one failed attempt.
A `RateLimitError` is always retried after the server-provided
`RetryAfter`; a retryable `NetworkError` is retried with the
jittered/capped backoff while attempts remain; everything else (and an
exhausted budget) is not retried. -/
def shouldRetry (cfg : RetryConfig) (attempt : Nat) (e : SdkError) (u : ℚ) : Bool × ℚ :=
  match e with
  | .rateLimitError retryAfter => (true, (retryAfter : ℚ))
  | .networkError true =>
      if attempt < cfg.maxRetries then (true, backoffDelay cfg attempt u) else (false, 0)
  | _ => (false, 0)

lemma cappedBackoff_le_max (cfg : RetryConfig) (attempt : Nat) :
    cappedBackoff cfg attempt ≤ cfg.maxBackoff := by
  unfold cappedBackoff
  split
  · exact le_refl _
  · next h => exact le_of_not_lt h

lemma cappedBackoff_nonneg (cfg : RetryConfig) (attempt : Nat)
    (hini : 0 ≤ cfg.initialBackoff) (hfac : 0 ≤ cfg.backoffFactor)
    (hmax : 0 ≤ cfg.maxBackoff) : 0 ≤ cappedBackoff cfg attempt := by
  unfold cappedBackoff
  split
  · exact hmax
  · exact mul_nonneg hini (pow_nonneg hfac attempt)

/-- Counterexample for C3: with a configuration straight from the
source shape (ceiling 30 s, factor 2, jitter on, 6 retries) and a
jitter draw of 0.9, attempt 5 is retried with a proposed delay of 36 s,
strictly above the 30 s ceiling — the cap is applied before jitter, so
the claim as stated is false. -/
theorem shouldRetry_delay_exceeds_ceiling :
    (shouldRetry (RetryConfig.mk 6 1 30 2 true) 5 (.networkError true) (9 / 10)).1 = true
    ∧ (shouldRetry (RetryConfig.mk 6 1 30 2 true) 5 (.networkError true) (9 / 10)).2 = 36
    ∧ (RetryConfig.mk 6 1 30 2 true).maxBackoff < 36 := by
  refine ⟨?_, ?_, by norm_num⟩
  · norm_num [shouldRetry]
  · norm_num [shouldRetry, backoffDelay, cappedBackoff]

/-- Claim C3 (amended): for a retryable network error the proposed
delay never exceeds 125% of the configured ceiling, and exactly the
ceiling when jitter is disabled (the cap is applied before the ±25%
jitter); every `Terminal`-classified error (authentication,
authorization, not-found, validation) is never retried.  A rate-limit
error's server-provided retry-after hint is used without capping. -/
theorem shouldRetry_bound_amended (cfg : RetryConfig) (attempt : Nat) (u : ℚ) (e : SdkError)
    (hini : 0 ≤ cfg.initialBackoff) (hfac : 0 ≤ cfg.backoffFactor)
    (hmax : 0 ≤ cfg.maxBackoff) (_hu0 : 0 ≤ u) (hu1 : u ≤ 1) :
    (cfg.jitter = false →
      (shouldRetry cfg attempt (.networkError true) u).2 ≤ cfg.maxBackoff)
    ∧ (shouldRetry cfg attempt (.networkError true) u).2 ≤ 5 / 4 * cfg.maxBackoff
    ∧ (isTerminalClass e = true → (shouldRetry cfg attempt e u).1 = false)
    ∧ ∀ retryAfter : Nat,
        shouldRetry cfg attempt (.rateLimitError retryAfter) u = (true, (retryAfter : ℚ)) := by
  have hc0 : 0 ≤ cappedBackoff cfg attempt := cappedBackoff_nonneg cfg attempt hini hfac hmax
  have hcM : cappedBackoff cfg attempt ≤ cfg.maxBackoff := cappedBackoff_le_max cfg attempt
  have hdelay : backoffDelay cfg attempt u ≤ 5 / 4 * cfg.maxBackoff := by
    unfold backoffDelay
    split
    · have hj : cappedBackoff cfg attempt * (2 * u - 1) ≤ cappedBackoff cfg attempt := by
        calc cappedBackoff cfg attempt * (2 * u - 1)
            ≤ cappedBackoff cfg attempt * 1 :=
              mul_le_mul_of_nonneg_left (by linarith) hc0
          _ = cappedBackoff cfg attempt := mul_one _
      nlinarith
    · linarith
  refine ⟨?_, ?_, ?_, fun retryAfter => rfl⟩
  · intro hnoj
    by_cases hlt : attempt < cfg.maxRetries
    · simp only [shouldRetry, if_pos hlt, backoffDelay, hnoj]
      simpa using hcM
    · simp only [shouldRetry, if_neg hlt]
      exact hmax
  · by_cases hlt : attempt < cfg.maxRetries
    · simpa [shouldRetry, if_pos hlt] using hdelay
    · simp only [shouldRetry, if_neg hlt]
      linarith
  · intro hterm
    cases e <;> simp_all [isTerminalClass, shouldRetry]

/-- Witness for the amended C3: the default configuration at attempt 0
with a median jitter draw satisfies all the amended bounds. -/
theorem shouldRetry_bound_amended_witness :
    ((0 : ℚ) ≤ defaultRetryConfig.initialBackoff ∧ (0 : ℚ) ≤ defaultRetryConfig.backoffFactor
      ∧ (0 : ℚ) ≤ defaultRetryConfig.maxBackoff ∧ (0 : ℚ) ≤ 1 / 2 ∧ (1 : ℚ) / 2 ≤ 1) ∧
    ((shouldRetry defaultRetryConfig 0 (.networkError true) (1 / 2)).2
        ≤ 5 / 4 * defaultRetryConfig.maxBackoff
      ∧ (shouldRetry defaultRetryConfig 0 .authenticationError (1 / 2)).1 = false) :=
  ⟨⟨by norm_num [defaultRetryConfig], by norm_num [defaultRetryConfig],
      by norm_num [defaultRetryConfig], by norm_num, by norm_num⟩,
    ⟨(shouldRetry_bound_amended defaultRetryConfig 0 (1 / 2) .authenticationError
        (by norm_num [defaultRetryConfig]) (by norm_num [defaultRetryConfig])
        (by norm_num [defaultRetryConfig]) (by norm_num) (by norm_num)).2.1,
      (shouldRetry_bound_amended defaultRetryConfig 0 (1 / 2) .authenticationError
        (by norm_num [defaultRetryConfig]) (by norm_num [defaultRetryConfig])
        (by norm_num [defaultRetryConfig]) (by norm_num) (by norm_num)).2.2.1 rfl⟩⟩

/-- Claim C10: the documented backoff computation without jitter equals
`min(initialBackoff * backoffFactor ^ attempt, maxBackoff)`, is
monotonically non-decreasing in the attempt number, and stays at the
ceiling once it reaches it. -/
theorem cappedBackoff_min_monotone (cfg : RetryConfig)
    (hini : 0 ≤ cfg.initialBackoff) (hfac : 1 ≤ cfg.backoffFactor) :
    (∀ a, cappedBackoff cfg a
        = min (cfg.initialBackoff * cfg.backoffFactor ^ a) cfg.maxBackoff)
    ∧ (∀ a b, a ≤ b → cappedBackoff cfg a ≤ cappedBackoff cfg b)
    ∧ (∀ a b, a ≤ b → cappedBackoff cfg a = cfg.maxBackoff →
        cappedBackoff cfg b = cfg.maxBackoff) := by
  have hmin : ∀ a, cappedBackoff cfg a
      = min (cfg.initialBackoff * cfg.backoffFactor ^ a) cfg.maxBackoff := by
    intro a
    unfold cappedBackoff
    split
    · next h => exact (min_eq_right (le_of_lt h)).symm
    · next h => exact (min_eq_left (le_of_not_lt h)).symm
  have hmono : ∀ a b, a ≤ b → cappedBackoff cfg a ≤ cappedBackoff cfg b := by
    intro a b hab
    have hbase : cfg.initialBackoff * cfg.backoffFactor ^ a
        ≤ cfg.initialBackoff * cfg.backoffFactor ^ b :=
      mul_le_mul_of_nonneg_left (pow_le_pow_right₀ hfac hab) hini
    rw [hmin a, hmin b]
    exact min_le_min hbase (le_refl _)
  refine ⟨hmin, hmono, ?_⟩
  intro a b hab hceil
  exact le_antisymm (cappedBackoff_le_max cfg b) (hceil ▸ hmono a b hab)

/-- Witness for C10: with the default configuration, the delay agrees
with the min formula, grows between attempts 2 and 7, and stays at the
30 s ceiling from attempt 5 onwards. -/
theorem cappedBackoff_min_monotone_witness :
    ((0 : ℚ) ≤ defaultRetryConfig.initialBackoff
      ∧ (1 : ℚ) ≤ defaultRetryConfig.backoffFactor) ∧
    (cappedBackoff defaultRetryConfig 3
        = min (defaultRetryConfig.initialBackoff * defaultRetryConfig.backoffFactor ^ 3)
            defaultRetryConfig.maxBackoff
      ∧ cappedBackoff defaultRetryConfig 2 ≤ cappedBackoff defaultRetryConfig 7
      ∧ (cappedBackoff defaultRetryConfig 5 = defaultRetryConfig.maxBackoff →
          cappedBackoff defaultRetryConfig 9 = defaultRetryConfig.maxBackoff)) :=
  ⟨⟨by norm_num [defaultRetryConfig], by norm_num [defaultRetryConfig]⟩,
    ⟨(cappedBackoff_min_monotone defaultRetryConfig
        (by norm_num [defaultRetryConfig]) (by norm_num [defaultRetryConfig])).1 3,
      (cappedBackoff_min_monotone defaultRetryConfig
        (by norm_num [defaultRetryConfig]) (by norm_num [defaultRetryConfig])).2.1 2 7
        (by norm_num),
      (cappedBackoff_min_monotone defaultRetryConfig
        (by norm_num [defaultRetryConfig]) (by norm_num [defaultRetryConfig])).2.2 5 9
        (by norm_num)⟩⟩

/-- Translated from `withRateLimitRetry` (src/unnamed/part_004, the
TypeScript and Go rate-limit retry helpers): the wait in seconds before
the next attempt after a `RateLimitError`.  `none` models a missing
`retryAfter` field (TypeScript `||` fallback), `some 0` the Go zero
value; both fall back to `2 ^ attempt` seconds. -/
def rateLimitWait (retryAfter : Option Nat) (attempt : Nat) : Nat :=
  match retryAfter with
  | none => 2 ^ attempt
  | some ra => if ra = 0 then 2 ^ attempt else ra

/-- Claim C9: whenever the caught rate-limit error carries no
retry-after value (absent or zero), the wait before the next attempt is
`2 ^ attempt` seconds, and this fallback grows past every fixed
ceiling. -/
theorem rate_limit_fallback_unbounded :
    (∀ attempt, rateLimitWait none attempt = 2 ^ attempt)
    ∧ (∀ attempt, rateLimitWait (some 0) attempt = 2 ^ attempt)
    ∧ (∀ ceiling : Nat, ∃ attempt, ceiling < rateLimitWait none attempt) := by
  refine ⟨fun _ => rfl, fun _ => rfl, fun ceiling => ⟨ceiling, ?_⟩⟩
  simpa [rateLimitWait] using Nat.lt_two_pow ceiling

end Helix
